import Mathlib

set_option maxRecDepth 8000

/-!
Shallow embedding of the extraction-and-normalization pipeline of
`data_loader.py` (car-maker-identifier repository).

Rows coming out of the PDF extractor are lists of cells; a cell is either a
text cell or the numeric year appended by the parser.  The embedding
translates, faithfully to the Python source:

* the character-class predicates used by the regexes (ASCII ranges, as used
  by the data: the regex classes involved are `\d`, `\s`, `[A-Za-z]`,
  `[A-Z]`, `[a-z]`, `[A-Z0-9]`),
* `normalize_country` (the country-code resolver, including its unused
  `context` parameter),
* `clean_manufacturer` / `normalize_manufacturer` (manufacturer
  canonicalizer),
* `clean_car_line`,
* `parse_country_percentage` and `parse_us_canada_percentage` (field
  parsers),
* the row-processing loop of `process_data` (legend skipping, column
  extraction, record assembly), as a per-row function `rowToEntry` folded
  by `processData`.
-/

/-- Characters counted as whitespace by Python `str.strip`, `str.split` and
the regex class `\s` (ASCII range). -/
def isPySpace (c : Char) : Bool :=
  c.toNat == 32 || c.toNat == 9 || c.toNat == 10 || c.toNat == 13 ||
  c.toNat == 11 || c.toNat == 12

/-- The regex class `\d` (ASCII digits). -/
def isDigitCh (c : Char) : Bool :=
  decide (48 ≤ c.toNat ∧ c.toNat ≤ 57)

/-- The regex class `[A-Z]`. -/
def isUpperAZ (c : Char) : Bool :=
  decide (65 ≤ c.toNat ∧ c.toNat ≤ 90)

/-- The regex class `[a-z]`. -/
def isLowerAZ (c : Char) : Bool :=
  decide (97 ≤ c.toNat ∧ c.toNat ≤ 122)

/-- The regex class `[A-Za-z]`. -/
def isAsciiAlpha (c : Char) : Bool :=
  isUpperAZ c || isLowerAZ c

/-- The regex class `[A-Z0-9]`. -/
def isUpperDigit (c : Char) : Bool :=
  isUpperAZ c || isDigitCh c

/-- Python `str.upper` on one character (ASCII). -/
def pyToUpper (c : Char) : Char :=
  if 97 ≤ c.toNat ∧ c.toNat ≤ 122 then Char.ofNat (c.toNat - 32) else c

/-- Python `str.lower` on one character (ASCII). -/
def pyToLower (c : Char) : Char :=
  if 65 ≤ c.toNat ∧ c.toNat ≤ 90 then Char.ofNat (c.toNat + 32) else c

/-- Numeric value of a digit string, as computed by Python `int`. -/
def natOfDigits (l : List Char) : Nat :=
  l.foldl (fun a c => 10 * a + (c.toNat - 48)) 0

/-- Python `str.strip`: drop whitespace from both ends. -/
def trimCharList (l : List Char) : List Char :=
  ((l.dropWhile isPySpace).reverse.dropWhile isPySpace).reverse

/-- Helper for Python `str.split` with no separator: accumulate the current
token (reversed) and emit it at whitespace boundaries. -/
def splitWsAux : List Char → List Char → List String
  | [], acc => if acc.isEmpty then [] else [String.mk acc.reverse]
  | c :: cs, acc =>
    if isPySpace c then
      if acc.isEmpty then splitWsAux cs []
      else String.mk acc.reverse :: splitWsAux cs []
    else splitWsAux cs (c :: acc)

/-- Python `str.split()` (split on whitespace runs, no empty tokens). -/
def splitWsList (l : List Char) : List String :=
  splitWsAux l []

/-- Python `str.title` helper: the flag records whether the previous
character was alphabetic. -/
def pyTitleAux : Bool → List Char → List Char
  | _, [] => []
  | prevAlpha, c :: cs =>
    if isAsciiAlpha c then
      (if prevAlpha then pyToLower c else pyToUpper c) :: pyTitleAux true cs
    else c :: pyTitleAux false cs

/-- Python `str.title` (ASCII). -/
def pyTitleStr (s : String) : String :=
  String.mk (pyTitleAux false s.data)

/-- Python `str.startswith p`. -/
def startsWithL (l : List Char) (p : String) : Bool :=
  p.data.isPrefixOf l

/-- Python substring membership `needle in hay`. -/
def containsSub (needle : List Char) : List Char → Bool
  | [] => needle.isPrefixOf []
  | c :: t => needle.isPrefixOf (c :: t) || containsSub needle t

/-- Scan for the first `)` and return the remainder after it, as the regex
fragment `[^)]*\)` consumes it. -/
def dropThroughRParen : List Char → Option (List Char)
  | [] => none
  | c :: cs => if c = ')' then some cs else dropThroughRParen cs

/-- Attempt to match the regex `\s*\([^)]*\)` at the start of `l`; on
success return the remainder after the match. -/
def parenMatchAt (l : List Char) : Option (List Char) :=
  match l.dropWhile isPySpace with
  | '(' :: rs => dropThroughRParen rs
  | _ => none

/-- Fuelled scanner for `re.sub(r'\s*\([^)]*\)', '', s)`: at each position
try the pattern, otherwise keep the character and move on.  One unit of
fuel is spent per position, and every successful match consumes at least
two characters, so `l.length` fuel always suffices. -/
def stripParensF : Nat → List Char → List Char
  | 0, l => l
  | _, [] => []
  | fuel + 1, c :: cs =>
    match parenMatchAt (c :: cs) with
    | some after => stripParensF fuel after
    | none => c :: stripParensF fuel cs

/-- `re.sub(r'\s*\([^)]*\)', '', s)`: delete every parenthetical group and
any whitespace directly before it. -/
def stripParens (l : List Char) : List Char :=
  stripParensF l.length l

/-- A raw table cell: text, or the numeric year appended by the PDF
parser. -/
inductive Cell where
  | str : String → Cell
  | num : Nat → Cell
deriving DecidableEq, Repr

/-- Python `str(cell)`. -/
def cellToStr : Cell → String
  | .str s => s
  | .num n => toString n

/-- `COUNTRY_MAPPING` from the source, in order. -/
def COUNTRY_MAPPING : List (String × String) :=
  [("US", "United States"), ("USA", "United States"), ("U.S.", "United States"),
   ("M", "Mexico"), ("MEX", "Mexico"), ("MX", "Mexico"),
   ("CN", "Canada"), ("CAN", "Canada"), ("CA", "Canada"),
   ("J", "Japan"), ("JPN", "Japan"), ("JP", "Japan"),
   ("G", "Germany"), ("GER", "Germany"), ("GERMANY", "Germany"),
   ("DE", "Denmark"),
   ("K", "South Korea"), ("KOR", "South Korea"), ("KR", "South Korea"),
   ("KOREA", "South Korea"),
   ("UK", "United Kingdom"), ("GB", "United Kingdom"),
   ("I", "Italy"), ("ITA", "Italy"), ("IT", "Italy"),
   ("F", "France"), ("FRA", "France"), ("FR", "France"),
   ("SW", "Sweden"), ("SWE", "Sweden"), ("SE", "Sweden"),
   ("H", "Hungary"), ("HUN", "Hungary"), ("HU", "Hungary"),
   ("AT", "Austria"), ("AUT", "Austria"), ("A", "Austria"),
   ("BE", "Belgium"), ("BEL", "Belgium"),
   ("CH", "China"), ("CHN", "China"),
   ("CZ", "Czech Republic"), ("CZE", "Czech Republic"),
   ("FN", "Finland"), ("FIN", "Finland"), ("FI", "Finland"),
   ("SP", "Spain"), ("ESP", "Spain"),
   ("SL", "Slovakia"), ("SVK", "Slovakia"), ("SK", "Slovakia"),
   ("T", "Turkey"), ("TUR", "Turkey"), ("TR", "Turkey"),
   ("BR", "Brazil"), ("BRA", "Brazil"),
   ("SA", "South Africa"), ("RSA", "South Africa"), ("ZA", "South Africa"),
   ("AF", "South Africa"),
   ("AU", "Australia"), ("AUS", "Australia"),
   ("PL", "Poland"), ("POL", "Poland"),
   ("TH", "Thailand"), ("THA", "Thailand"),
   ("ID", "Indonesia"), ("IDN", "Indonesia"),
   ("IN", "India"), ("IND", "India"),
   ("P", "Philippines"),
   ("PO", "Portugal"), ("PRT", "Portugal"), ("PT", "Portugal"),
   ("N", "Netherlands"), ("NLD", "Netherlands"), ("NL", "Netherlands"),
   ("R", "Romania"),
   ("RU", "Russia"), ("RUS", "Russia"),
   ("SI", "Singapore"),
   ("CU", "Cuba"),
   ("OT", "Other"),
   ("MYS", "Malaysia"), ("MY", "Malaysia"),
   ("ARG", "Argentina"), ("AR", "Argentina"),
   ("TW", "Taiwan"), ("TWN", "Taiwan"),
   ("VNM", "Vietnam"), ("VN", "Vietnam"),
   ("SERBIA", "Serbia")]

/-- Dictionary lookup in `COUNTRY_MAPPING`. -/
def lookupCountry (k : String) : Option String :=
  (COUNTRY_MAPPING.find? (fun p => p.1 == k)).map (fun p => p.2)

/-- `US_STATES` from `normalize_country`. -/
def US_STATES : List String :=
  ["AL", "AK", "AZ", "AR", "CA", "CO", "CT", "DE", "FL", "GA", "HI", "ID",
   "IL", "IN", "IA", "KS", "KY", "LA", "ME", "MD", "MA", "MI", "MN", "MS",
   "MO", "MT", "NE", "NV", "NH", "NJ", "NM", "NY", "NC", "ND", "OH", "OK",
   "OR", "PA", "RI", "SC", "SD", "TN", "TX", "UT", "VT", "VA", "WA", "WV",
   "WI", "WY", "DC"]

/-- `CA_PROVINCES` from `normalize_country`. -/
def CA_PROVINCES : List String :=
  ["ON", "QC", "BC", "AB", "MB", "SK", "NS", "NB", "NL", "PE", "YT", "NT",
   "NU"]

/-- `GERMAN_CITIES` from `normalize_country`. -/
def GERMAN_CITIES : List String :=
  ["LEIPZIG", "MUNICH", "BERLIN", "HAMBURG", "STUTTGART", "COLOGNE",
   "FRANKFURT", "DUSSELDORF", "BREMEN", "HANNOVER", "WOLFSBURG",
   "INGOLSTADT", "REGENSBURG", "RUSSELSHEIM", "ZWICKAU"]

/-- The `known_countries` list of `normalize_country`, in order. -/
def knownCountries : List String :=
  ["UNITED STATES", "MEXICO", "CANADA", "JAPAN", "GERMANY", "SOUTH KOREA",
   "UNITED KINGDOM", "GREAT BRITAIN", "ITALY", "FRANCE", "SWEDEN", "HUNGARY",
   "AUSTRIA", "BELGIUM", "CHINA", "CZECH REPUBLIC", "FINLAND", "SPAIN",
   "SLOVAKIA", "TURKEY", "BRAZIL", "SOUTH AFRICA", "AUSTRALIA", "POLAND",
   "THAILAND", "INDONESIA", "MALAYSIA", "ARGENTINA", "TAIWAN", "VIETNAM",
   "INDIA", "PORTUGAL", "NETHERLANDS", "RUSSIA", "SERBIA", "DENMARK",
   "PHILIPPINES", "ROMANIA", "SINGAPORE", "CUBA"]

/-- The two-word country names checked against the last two words. -/
def twoWordCountries : List String :=
  ["SOUTH KOREA", "SOUTH AFRICA", "UNITED STATES", "UNITED KINGDOM",
   "CZECH REPUBLIC"]

/-- The per-word scan of `normalize_country`: for each word in order, check
US states, then Canadian provinces, then German cities. -/
def wordScan : List String → Option String
  | [] => none
  | w :: ws =>
    if US_STATES.contains w then some "United States"
    else if CA_PROVINCES.contains w then some "Canada"
    else if GERMAN_CITIES.contains w then some "Germany"
    else wordScan ws

/-- The resolution chain of `normalize_country` applied to the cleaned
text (after stripping, parenthesis removal and first-line selection). -/
def resolveCleaned (code2 : List Char) : Option String :=
  let codeUpper := code2.map pyToUpper
  let words :=
    splitWsList (codeUpper.map (fun c => if c == ',' then ' ' else c))
  match wordScan words with
  | some c => some c
  | none =>
    if startsWithL codeUpper "US," || startsWithL codeUpper "US " then
      some "United States"
    else if startsWithL codeUpper "M," || startsWithL codeUpper "M " then
      some "Mexico"
    else if startsWithL codeUpper "K," then some "South Korea"
    else if startsWithL codeUpper "G," then some "Germany"
    else
      let tailResult :=
        if 2 ≤ words.length then
          match lookupCountry (words.getD (words.length - 1) "") with
          | some c => some c
          | none =>
            let lastTwo :=
              words.getD (words.length - 2) "" ++ " " ++
                words.getD (words.length - 1) ""
            if twoWordCountries.contains lastTwo then
              some (pyTitleStr lastTwo)
            else none
        else none
      match tailResult with
      | some c => some c
      | none =>
        match lookupCountry (String.mk codeUpper) with
        | some c => some c
        | none =>
          match knownCountries.find? (fun c => containsSub c.data codeUpper) with
          | some c => some (pyTitleStr c)
          | none =>
            if 3 < code2.length then some (pyTitleStr (String.mk code2))
            else some (String.mk code2)

/-- `normalize_country(code, context="")` from the source.  The `context`
parameter is part of the Python signature; the body never reads it. -/
def normalize_country (code : Cell) (context : String) : Option String :=
  match code with
  | .num _ => none
  | .str s =>
    let original := trimCharList s.data
    if original.isEmpty then none
    else
      let code1 := trimCharList (stripParens original)
      let code2 :=
        if code1.contains '\n' then
          trimCharList (code1.takeWhile (fun c => c != '\n'))
        else code1
      resolveCleaned code2

/-- `MANUFACTURER_NORMALIZATION` from the source, in insertion order. -/
def MANUFACTURER_NORMALIZATION : List (String × String) :=
  [("GM LLC", "General Motors"),
   ("General Motors LLC", "General Motors"),
   ("FCA", "Stellantis"),
   ("Fiat Chrysler", "Stellantis"),
   ("Honda Motor Co.,", "Honda"),
   ("Honda Motor Co., Ltd.", "Honda"),
   ("Hyundai Motor", "Hyundai"),
   ("Hyundai Motor Company", "Hyundai"),
   ("Jaguar Land Rover", "Jaguar Land Rover"),
   ("JaguaLr iLmaintedd Rover", "Jaguar Land Rover"),
   ("Jaguar Land Rover Limited", "Jaguar Land Rover"),
   ("Mazda Motor", "Mazda"),
   ("Mazda Motor Corporation", "Mazda"),
   ("Mitsubishi Motors", "Mitsubishi"),
   ("Mitsubishi Motors Corporation", "Mitsubishi"),
   ("Nissan North", "Nissan"),
   ("Nissan North America,", "Nissan"),
   ("Nissan North America, Inc", "Nissan"),
   ("Bugatti Automobiles", "Bugatti"),
   ("Bugatti Automobiles S.A.S.", "Bugatti"),
   ("Rolls-Royce Motor", "Rolls-Royce"),
   ("Tesla Inc.", "Tesla"),
   ("Lotus Cars Ltd.", "Lotus"),
   ("Lucid USA, Inc.", "Lucid"),
   ("Kia Motors", "Kia")]

/-- `INVALID_MANUFACTURERS` from the source. -/
def INVALID_MANUFACTURERS : List String :=
  ["Limited", "XC90 Aut (8vxl) FWD + ERAD (T8 AWD)", ""]

/-- The `known_manufacturers` list built inside `clean_manufacturer`:
normalization keys followed by the extra names. -/
def knownManufacturers : List String :=
  MANUFACTURER_NORMALIZATION.map (fun p => p.1) ++
  ["Audi", "BMW AG", "Bentley", "Ford Motor Company", "Porsche AG",
   "Subaru", "Toyota", "Volkswagen", "Volvo", "Mercedes-Benz USA",
   "Lamborghini", "Polestar"]

/-- The tail of the regex `^[A-Z]{1,2}\s+[A-Z][a-z]+$`: whitespace run, one
uppercase letter, then one or more lowercase letters to the end. -/
def legendShapeTail (l : List Char) : Bool :=
  !(l.takeWhile isPySpace).isEmpty &&
  (match l.dropWhile isPySpace with
   | c :: cs => isUpperAZ c && !cs.isEmpty && cs.all isLowerAZ
   | [] => false)

/-- `re.match(r'^[A-Z]{1,2}\s+[A-Z][a-z]+$', s)`: one or two uppercase
letters, whitespace, a capitalized lowercase word, end of string.  The
greedy two-letter alternative is taken when the second character is
uppercase; backtracking to one letter can never help then, because the
second character is not whitespace. -/
def matchLegendShape (l : List Char) : Bool :=
  match l with
  | [] => false
  | c0 :: rest =>
    isUpperAZ c0 &&
    (match rest with
     | [] => false
     | c1 :: rest2 =>
       if isUpperAZ c1 then legendShapeTail rest2 else legendShapeTail rest)

/-- `re.match(r'^[A-Z0-9]+\s+(Aut|AWD|FWD|RWD)', s)`. -/
def matchModelShape (l : List Char) : Bool :=
  let r := l.dropWhile isUpperDigit
  !(l.takeWhile isUpperDigit).isEmpty &&
  !(r.takeWhile isPySpace).isEmpty &&
  (let r2 := r.dropWhile isPySpace
   startsWithL r2 "Aut" || startsWithL r2 "AWD" || startsWithL r2 "FWD" ||
   startsWithL r2 "RWD")

/-- One position of `re.search(r'\d+%|MPV|PC\s|Truck', s)`: does one of the
alternatives match here? -/
def dataPatternAt (l : List Char) : Bool :=
  (match l with
   | c :: r =>
     isDigitCh c &&
     (match r.dropWhile isDigitCh with
      | '%' :: _ => true
      | _ => false)
   | [] => false) ||
  startsWithL l "MPV" ||
  (startsWithL l "PC" &&
   (match l.drop 2 with
    | c :: _ => isPySpace c
    | [] => false)) ||
  startsWithL l "Truck"

/-- `re.search(r'\d+%|MPV|PC\s|Truck', s)`: try every position. -/
def containsDataPattern : List Char → Bool
  | [] => false
  | c :: t => dataPatternAt (c :: t) || containsDataPattern t

/-- `clean_manufacturer` from the source. -/
def clean_manufacturer (raw : Cell) : Option String :=
  match raw with
  | .num _ => none
  | .str s =>
    if s.data.isEmpty then none
    else
      let firstLine := trimCharList (s.data.takeWhile (fun c => c != '\n'))
      if matchLegendShape firstLine then none
      else if INVALID_MANUFACTURERS.contains (String.mk firstLine) then none
      else if matchModelShape firstLine then none
      else if containsDataPattern firstLine then
        match knownManufacturers.find? (fun m => startsWithL firstLine m) with
        | some m => some m
        | none =>
          match splitWsList firstLine with
          | [] => none
          | w :: _ => some w
      else some (String.mk firstLine)

/-- `normalize_manufacturer` from the source.  The leading falsiness guard
of the Python function is enforced by its only caller, which never passes
an empty name. -/
def normalize_manufacturer (m : String) : String :=
  match MANUFACTURER_NORMALIZATION.find?
      (fun p => startsWithL m.data p.1 || m == p.1) with
  | some p => p.2
  | none =>
    if startsWithL m.data "Subaru Subaru" then "Subaru"
    else if startsWithL m.data "Tesla Inc. Tesla" then "Tesla"
    else m

/-- `clean_car_line` from the source. -/
def clean_car_line (raw : Cell) : Option String :=
  match raw with
  | .num _ => none
  | .str s =>
    if s.data.isEmpty then none
    else
      let firstLine := trimCharList (s.data.takeWhile (fun c => c != '\n'))
      if firstLine.isEmpty then none else some (String.mk firstLine)

/-- The regex body of `parse_country_percentage`:
`(\d+)\s*%\s*([A-Za-z]+)?` matched at the start of the cleaned value. -/
def matchPctCountry (l : List Char) : Option Int × Option String :=
  let ds := l.takeWhile isDigitCh
  if ds.isEmpty then (none, none)
  else
    match (l.dropWhile isDigitCh).dropWhile isPySpace with
    | '%' :: r2 =>
      let ls := (r2.dropWhile isPySpace).takeWhile isAsciiAlpha
      (some ((natOfDigits ds : Nat) : Int),
       if ls.isEmpty then none else some (String.mk (ls.map pyToUpper)))
    | _ => (none, none)

/-- `parse_country_percentage` from the source. -/
def parse_country_percentage (value : Cell) : Option Int × Option String :=
  match value with
  | .num _ => (none, none)
  | .str s =>
    if s.data.isEmpty then (none, none)
    else
      let v1 := trimCharList s.data
      if v1.isEmpty then (none, none)
      else matchPctCountry (trimCharList (v1.takeWhile (fun c => c != '\n')))

/-- `parse_us_canada_percentage` from the source: the regex is
`(\d+)\s*%?`, so only the leading digit run matters. -/
def parse_us_canada_percentage (value : Cell) : Int :=
  match value with
  | .num _ => 0
  | .str s =>
    if s.data.isEmpty then 0
    else
      let ds := (trimCharList s.data).takeWhile isDigitCh
      if ds.isEmpty then 0 else ((natOfDigits ds : Nat) : Int)

/-- The legend-prefix codes of `LEGEND_PATTERNS`, each standing for the
regex `^CODE\s`. -/
def LEGEND_CODES : List String :=
  ["AU", "AT", "BE", "BR", "CH", "CU", "CN",
   "CZ", "DE", "F", "FN", "G", "H", "I",
   "ID", "IN", "J", "K", "M", "N", "OT",
   "P", "PL", "PO", "R", "RU", "SA", "SI",
   "SL", "SP", "SW", "T", "TH", "UK", "US"]

/-- Does `str(row[0])` match one of the legend patterns `^CODE\s`? -/
def isLegendRow (s : String) : Bool :=
  LEGEND_CODES.any (fun code =>
    startsWithL s.data code &&
    (match s.data.drop code.length with
     | c :: _ => isPySpace c
     | [] => false))

/-- Row classification as performed by the `process_data` loop: rows with
fewer than 8 cells are skipped first (noise), then legend rows, and the
rest are data rows handed to assembly. -/
inductive RowClass where
  | noise
  | legend
  | dataRow
deriving DecidableEq, Repr

/-- Classify a row according to the skip order of `process_data`. -/
def classifyRow (row : List Cell) : RowClass :=
  if row.length < 8 then .noise
  else if isLegendRow (cellToStr (row.getD 0 (Cell.str ""))) then .legend
  else .dataRow

/-- The structured record assembled for one data row (the dictionary
appended to `processed`). -/
structure Entry where
  year : Cell
  manufacturer : String
  carLine : Cell
  percentUsCanada : Int
  primaryCountry : String
  primaryPercent : Int
  secondaryCountry : String
  secondaryPercent : Int
  engineSource : Cell
  transmissionSource : Cell
  assemblyCountry : Cell
  raw : List Cell
deriving DecidableEq, Repr

/-- The record-assembly part of the `process_data` loop body, after the
manufacturer has been cleaned and normalized. -/
def mkEntry (row : List Cell) (manufacturer : String) : Entry :=
  let rawCarLine :=
    if 2 < row.length then row.getD 2 (Cell.str "") else row.getD 1 (Cell.str "")
  let fallbackCarLine :=
    if 1 < row.length then row.getD 1 (Cell.str "") else Cell.str ""
  let carLine : Cell :=
    match clean_car_line rawCarLine with
    | some cl => if cl.isEmpty then fallbackCarLine else Cell.str cl
    | none => fallbackCarLine
  let pc1 := parse_country_percentage (row.getD 5 (Cell.str ""))
  let pc2 := parse_country_percentage (row.getD 6 (Cell.str ""))
  let country1 : Option String :=
    match pc1.2 with
    | some c => if c.isEmpty then none else normalize_country (Cell.str c) manufacturer
    | none => none
  let country2 : Option String :=
    match pc2.2 with
    | some c => if c.isEmpty then none else normalize_country (Cell.str c) manufacturer
    | none => none
  let engine := row.getD 7 (Cell.str "")
  let trans := row.getD 9 (Cell.str "")
  let assembly :=
    if 3 < row.length then row.getD (row.length - 3) (Cell.str "")
    else Cell.str ""
  let engineNorm := normalize_country engine manufacturer
  let transNorm := normalize_country trans manufacturer
  let assemblyNorm := normalize_country assembly manufacturer
  { year := row.getD (row.length - 1) (Cell.str "")
    manufacturer := manufacturer
    carLine := carLine
    percentUsCanada := parse_us_canada_percentage (row.getD 4 (Cell.str "0"))
    primaryCountry :=
      match country1 with
      | some c => c
      | none => ""
    primaryPercent := pc1.1.getD 0
    secondaryCountry :=
      match country2 with
      | some c => c
      | none => ""
    secondaryPercent := pc2.1.getD 0
    engineSource :=
      match engineNorm with
      | some s => if s.isEmpty then engine else Cell.str s
      | none => engine
    transmissionSource :=
      match transNorm with
      | some s => if s.isEmpty then trans else Cell.str s
      | none => trans
    assemblyCountry :=
      match assemblyNorm with
      | some s => if s.isEmpty then assembly else Cell.str s
      | none => assembly
    raw := row }

/-- One iteration of the `process_data` loop: either skip the row (too few
columns, legend entry, unrecoverable manufacturer) or emit one record. -/
def rowToEntry (row : List Cell) : Option Entry :=
  if row.length < 8 then none
  else if isLegendRow (cellToStr (row.getD 0 (Cell.str ""))) then none
  else
    match clean_manufacturer (row.getD 0 (Cell.str "")) with
    | none => none
    | some m0 => some (mkEntry row (normalize_manufacturer m0))

/-- `process_data`: fold the loop body over all raw rows, in order. -/
def processData (rows : List (List Cell)) : List Entry :=
  rows.filterMap rowToEntry

/-- The canonical country set: the distinct values of `COUNTRY_MAPPING`,
written out (see `canonicalCountries_eq`). -/
def canonicalCountries : List String :=
  ["United States", "Mexico", "Canada", "Japan", "Germany", "Denmark",
   "South Korea", "United Kingdom", "Italy", "France", "Sweden", "Hungary",
   "Austria", "Belgium", "China", "Czech Republic", "Finland", "Spain",
   "Slovakia", "Turkey", "Brazil", "South Africa", "Australia", "Poland",
   "Thailand", "Indonesia", "India", "Philippines", "Portugal",
   "Netherlands", "Romania", "Russia", "Singapore", "Cuba", "Other",
   "Malaysia", "Argentina", "Taiwan", "Vietnam", "Serbia"]

/-- The end-to-end example row of the specification (year appended by the
PDF parser). -/
def toyotaRow : List Cell :=
  [Cell.str "Toyota", Cell.str "Corolla", Cell.str "Corolla", Cell.str "PC",
   Cell.str "75%", Cell.str "15%G", Cell.str "10%J", Cell.str "G",
   Cell.str "", Cell.str "J", Cell.str "", Cell.str "United States",
   Cell.str "", Cell.num 2023]

/-- The record `process_data` emits for `toyotaRow`. -/
def toyotaEntry : Entry :=
  { year := Cell.num 2023
    manufacturer := "Toyota"
    carLine := Cell.str "Corolla"
    percentUsCanada := 75
    primaryCountry := "Germany"
    primaryPercent := 15
    secondaryCountry := "Japan"
    secondaryPercent := 10
    engineSource := Cell.str "Germany"
    transmissionSource := Cell.str "Japan"
    assemblyCountry := Cell.str "United States"
    raw := toyotaRow }

/-- `toyotaRow` with the US/Canada content cell replaced by `"150%"`. -/
def row150 : List Cell :=
  [Cell.str "Toyota", Cell.str "Corolla", Cell.str "Corolla", Cell.str "PC",
   Cell.str "150%", Cell.str "15%G", Cell.str "10%J", Cell.str "G",
   Cell.str "", Cell.str "J", Cell.str "", Cell.str "United States",
   Cell.str "", Cell.num 2023]

/-- A row with a valid manufacturer but empty car-line position and empty
fallback column. -/
def blankCarLineRow : List Cell :=
  [Cell.str "Toyota", Cell.str "", Cell.str "", Cell.str "", Cell.str "",
   Cell.str "", Cell.str "", Cell.str "", Cell.num 2023]

/-- A data-shaped row whose first cell is on the manufacturer denylist, so
assembly drops it without recording any reason. -/
def limitedRow : List Cell :=
  [Cell.str "Limited", Cell.str "a", Cell.str "b", Cell.str "c",
   Cell.str "", Cell.str "", Cell.str "", Cell.str "", Cell.num 2023]

/-- A legend row long enough to reach the legend check of the loop. -/
def legendRow9 : List Cell :=
  [Cell.str "AU Australia", Cell.str "", Cell.str "", Cell.str "",
   Cell.str "", Cell.str "", Cell.str "", Cell.str "", Cell.num 2023]

/-- `toyotaRow` with the primary country-percentage cell replaced. -/
def toyotaRowPct (c : Cell) : List Cell :=
  [Cell.str "Toyota", Cell.str "Corolla", Cell.str "Corolla", Cell.str "PC",
   Cell.str "75%", c, Cell.str "10%J", Cell.str "G",
   Cell.str "", Cell.str "J", Cell.str "", Cell.str "United States",
   Cell.str "", Cell.num 2023]

/-! ### Character-level facts -/

theorem pyToUpper_fixed {c : Char} (h : isUpperAZ c = true) : pyToUpper c = c := by
  simp only [isUpperAZ, decide_eq_true_eq] at h
  simp only [pyToUpper]
  rw [if_neg (by omega)]

theorem isAsciiAlpha_of_upper {c : Char} (h : isUpperAZ c = true) :
    isAsciiAlpha c = true := by
  simp [isAsciiAlpha, h]

theorem not_space_of_digit {c : Char} (h : isDigitCh c = true) :
    isPySpace c = false := by
  simp only [isDigitCh, decide_eq_true_eq] at h
  simp only [isPySpace, Bool.or_eq_false_iff, beq_eq_false_iff_ne, ne_eq]
  omega

theorem not_space_of_upper {c : Char} (h : isUpperAZ c = true) :
    isPySpace c = false := by
  simp only [isUpperAZ, decide_eq_true_eq] at h
  simp only [isPySpace, Bool.or_eq_false_iff, beq_eq_false_iff_ne, ne_eq]
  omega

theorem toNat_ne_imp_ne {c d : Char} (h : c.toNat ≠ d.toNat) : c ≠ d := by
  intro he
  exact h (he ▸ rfl)

theorem not_nl_of_digit {c : Char} (h : isDigitCh c = true) :
    (c != '\n') = true := by
  simp only [isDigitCh, decide_eq_true_eq] at h
  simp only [bne_iff_ne, ne_eq]
  intro he
  rw [he] at h
  exact absurd h (by decide)

theorem not_nl_of_upper {c : Char} (h : isUpperAZ c = true) :
    (c != '\n') = true := by
  simp only [isUpperAZ, decide_eq_true_eq] at h
  simp only [bne_iff_ne, ne_eq]
  intro he
  rw [he] at h
  exact absurd h (by decide)

/-! ### List-level helpers -/

theorem takeWhile_all {p : Char → Bool} :
    ∀ {l : List Char}, (∀ c ∈ l, p c = true) → l.takeWhile p = l := by
  intro l
  induction l with
  | nil => intro _; rfl
  | cons a t ih =>
    intro h
    rw [List.takeWhile_cons_of_pos (h a (by simp)), ih (fun c hc => h c (by simp [hc]))]

theorem dropWhile_all_neg {p : Char → Bool} :
    ∀ {l : List Char}, (∀ c ∈ l, p c = false) → l.dropWhile p = l := by
  intro l
  induction l with
  | nil => intro _; rfl
  | cons a t _ =>
    intro h
    exact List.dropWhile_cons_of_neg (by simp [h a (by simp)])

theorem trim_all_nonspace {l : List Char} (h : ∀ c ∈ l, isPySpace c = false) :
    trimCharList l = l := by
  unfold trimCharList
  rw [dropWhile_all_neg h, dropWhile_all_neg (fun c hc => h c (List.mem_reverse.mp hc)),
    List.reverse_reverse]

theorem map_fixed {f : Char → Char} :
    ∀ {l : List Char}, (∀ c ∈ l, f c = c) → l.map f = l := by
  intro l
  induction l with
  | nil => intro _; rfl
  | cons a t ih =>
    intro h
    simp only [List.map_cons, h a (by simp), ih (fun c hc => h c (by simp [hc]))]

theorem takeWhile_append_stop {p : Char → Bool} :
    ∀ (l : List Char) (c : Char) (r : List Char), (∀ x ∈ l, p x = true) →
      p c = false →
      (l ++ c :: r).takeWhile p = l ∧ (l ++ c :: r).dropWhile p = c :: r := by
  intro l
  induction l with
  | nil =>
    intro c r _ hc
    exact ⟨List.takeWhile_cons_of_neg (by simp [hc]),
      List.dropWhile_cons_of_neg (by simp [hc])⟩
  | cons a t ih =>
    intro c r h hc
    have ht := ih c r (fun x hx => h x (by simp [hx])) hc
    constructor
    · rw [List.cons_append, List.takeWhile_cons_of_pos (h a (by simp)), ht.1]
    · rw [List.cons_append, List.dropWhile_cons_of_pos (h a (by simp)), ht.2]

theorem mk_ne_empty {l : List Char} (h : l ≠ []) : String.mk l ≠ "" := by
  intro he
  exact h (congrArg String.data he)

/-! ### Tokenizer facts -/

theorem splitWsAux_ne_empty :
    ∀ (l acc : List Char) (w : String), w ∈ splitWsAux l acc → w.data ≠ [] := by
  intro l
  induction l with
  | nil =>
    intro acc w hw
    simp only [splitWsAux] at hw
    by_cases ha : acc.isEmpty
    · rw [if_pos ha] at hw
      exact absurd hw (by simp)
    · rw [if_neg ha] at hw
      simp only [List.mem_singleton] at hw
      subst hw
      intro he
      have hrev : acc.reverse = [] := he
      simp only [List.reverse_eq_nil_iff] at hrev
      subst hrev
      exact ha rfl
  | cons c t ih =>
    intro acc w hw
    simp only [splitWsAux] at hw
    by_cases hc : isPySpace c
    · rw [if_pos hc] at hw
      by_cases ha : acc.isEmpty
      · rw [if_pos ha] at hw
        exact ih [] w hw
      · rw [if_neg ha] at hw
        rcases List.mem_cons.mp hw with h1 | h2
        · subst h1
          intro he
          have hrev : acc.reverse = [] := he
          simp only [List.reverse_eq_nil_iff] at hrev
          subst hrev
          exact ha rfl
        · exact ih [] w h2
    · rw [if_neg hc] at hw
      exact ih (c :: acc) w hw

theorem splitWs_token_ne_empty {l : List Char} {w : String}
    (h : w ∈ splitWsList l) : w ≠ "" := by
  intro he
  exact splitWsAux_ne_empty l [] w h (congrArg String.data he)

/-! ### Field-parser evaluation on well-formed composite cells -/

theorem matchPctCountry_eval (ds cs : List Char) (h1 : ds ≠ [])
    (h2 : ∀ c ∈ ds, isDigitCh c = true) (h6 : ∀ c ∈ cs, isUpperAZ c = true) :
    matchPctCountry (ds ++ '%' :: cs) =
      (some ((natOfDigits ds : Nat) : Int),
       if cs.isEmpty then none else some (String.mk cs)) := by
  have hsplit := takeWhile_append_stop ds '%' cs h2 (by decide)
  have hdse : ds.isEmpty = false := by
    cases ds with
    | nil => exact absurd rfl h1
    | cons a t => rfl
  have hd1 : List.dropWhile isPySpace ('%' :: cs) = '%' :: cs :=
    List.dropWhile_cons_of_neg (by decide)
  have hd2 : List.dropWhile isPySpace cs = cs :=
    dropWhile_all_neg (fun c hc => not_space_of_upper (h6 c hc))
  have ht2 : List.takeWhile isAsciiAlpha cs = cs :=
    takeWhile_all (fun c hc => isAsciiAlpha_of_upper (h6 c hc))
  have hm : List.map pyToUpper cs = cs :=
    map_fixed (fun c hc => pyToUpper_fixed (h6 c hc))
  simp only [matchPctCountry, hsplit.1, hsplit.2, hdse, Bool.false_eq_true,
    if_false, hd1, hd2, ht2, hm]

theorem parse_country_percentage_eval (ds cs : List Char) (h1 : ds ≠ [])
    (h2 : ∀ c ∈ ds, isDigitCh c = true) (h6 : ∀ c ∈ cs, isUpperAZ c = true) :
    parse_country_percentage (Cell.str (String.mk (ds ++ '%' :: cs))) =
      (some ((natOfDigits ds : Nat) : Int),
       if cs.isEmpty then none else some (String.mk cs)) := by
  have hmem : ∀ c ∈ ds ++ '%' :: cs,
      isDigitCh c = true ∨ c = '%' ∨ isUpperAZ c = true := by
    intro c hc
    rcases List.mem_append.mp hc with hl | hr
    · exact Or.inl (h2 c hl)
    · rcases List.mem_cons.mp hr with he | hcs
      · exact Or.inr (Or.inl he)
      · exact Or.inr (Or.inr (h6 c hcs))
  have hns : ∀ c ∈ ds ++ '%' :: cs, isPySpace c = false := by
    intro c hc
    rcases hmem c hc with h | h | h
    · exact not_space_of_digit h
    · rw [h]; decide
    · exact not_space_of_upper h
  have hnl : ∀ c ∈ ds ++ '%' :: cs, (c != '\n') = true := by
    intro c hc
    rcases hmem c hc with h | h | h
    · exact not_nl_of_digit h
    · rw [h]; decide
    · exact not_nl_of_upper h
  have hne : (ds ++ '%' :: cs).isEmpty = false := by
    cases ds with
    | nil => exact absurd rfl h1
    | cons a t => rfl
  have hdata : (String.mk (ds ++ '%' :: cs)).data = ds ++ '%' :: cs := rfl
  simp only [parse_country_percentage, hdata, hne, Bool.false_eq_true, if_false,
    trim_all_nonspace hns, takeWhile_all hnl]
  exact matchPctCountry_eval ds cs h1 h2 h6

/-! ### Nonnegativity of the parsed percentage fields -/

theorem matchPctCountry_fst_shape (l : List Char) :
    (matchPctCountry l).1 = none ∨
      ∃ n : Nat, (matchPctCountry l).1 = some ((n : Nat) : Int) := by
  unfold matchPctCountry
  by_cases h : (List.takeWhile isDigitCh l).isEmpty
  · simp only [h, if_true]
    exact Or.inl trivial
  · simp only [Bool.not_eq_true] at h
    simp only [h, Bool.false_eq_true, if_false]
    split
    · exact Or.inr ⟨_, rfl⟩
    · exact Or.inl rfl

theorem matchPctCountry_fst_nonneg (l : List Char) :
    0 ≤ ((matchPctCountry l).1).getD 0 := by
  rcases matchPctCountry_fst_shape l with h | ⟨n, h⟩ <;> rw [h]
  · simp
  · simp only [Option.getD_some]
    exact Int.natCast_nonneg _

theorem parse_country_percentage_fst_nonneg (c : Cell) :
    0 ≤ ((parse_country_percentage c).1).getD 0 := by
  match c with
  | .num n => simp [parse_country_percentage]
  | .str s =>
    simp only [parse_country_percentage]
    split
    · simp
    · split
      · simp
      · exact matchPctCountry_fst_nonneg _

theorem parse_us_canada_percentage_nonneg (c : Cell) :
    0 ≤ parse_us_canada_percentage c := by
  match c with
  | .num n => simp [parse_us_canada_percentage]
  | .str s =>
    simp only [parse_us_canada_percentage]
    split
    · simp
    · split
      · simp
      · exact Int.natCast_nonneg _

/-! ### The cleaned manufacturer is never the empty string -/

theorem clean_manufacturer_ne_empty {c : Cell} {m : String}
    (h : clean_manufacturer c = some m) : m ≠ "" := by
  match c with
  | .num n => exact absurd h (by simp [clean_manufacturer])
  | .str s =>
    simp only [clean_manufacturer] at h
    split at h
    · exact absurd h (by simp)
    · split at h
      · exact absurd h (by simp)
      · split at h
        · exact absurd h (by simp)
        · split at h
          · exact absurd h (by simp)
          · split at h
            · -- the data-pattern branch
              split at h
              · -- a known manufacturer prefix was found
                rename_i hfind
                injection h with h2
                subst h2
                have hmem := List.mem_of_find?_eq_some hfind
                have hall : ∀ x ∈ knownManufacturers, x ≠ "" := by decide
                exact hall _ hmem
              · -- fall back to the first whitespace token
                split at h
                · exact absurd h (by simp)
                · rename_i htok
                  injection h with h2
                  subst h2
                  exact splitWs_token_ne_empty (htok ▸ List.mem_cons_self _ _)
            · -- the plain first-line branch: the empty string is on the
              -- denylist, so the line cannot be empty here
              rename_i hinv _ _
              injection h with h2
              subst h2
              intro he
              have hnil : trimCharList (s.data.takeWhile (fun c => c != '\n')) = [] :=
                congrArg String.data he
              rw [hnil] at hinv
              exact hinv (by decide)

theorem normalize_manufacturer_ne_empty {m : String} (h : m ≠ "") :
    normalize_manufacturer m ≠ "" := by
  unfold normalize_manufacturer
  split
  · rename_i p hfind
    have hmem := List.mem_of_find?_eq_some hfind
    have hall : ∀ x ∈ MANUFACTURER_NORMALIZATION, x.2 ≠ "" := by decide
    exact hall _ hmem
  · split
    · decide
    · split
      · decide
      · exact h

/-! ### Inversion for the loop body -/

theorem rowToEntry_inv {row : List Cell} {e : Entry}
    (h : rowToEntry row = some e) :
    ∃ m0, clean_manufacturer (row.getD 0 (Cell.str "")) = some m0 ∧
      e = mkEntry row (normalize_manufacturer m0) := by
  unfold rowToEntry at h
  split at h
  · exact absurd h (by simp)
  · split at h
    · exact absurd h (by simp)
    · split at h
      · exact absurd h (by simp)
      · rename_i m0 hm0
        injection h with h2
        exact ⟨m0, hm0, h2.symm⟩

theorem mkEntry_manufacturer (row : List Cell) (m : String) :
    (mkEntry row m).manufacturer = m := rfl

theorem mkEntry_percentUsCanada (row : List Cell) (m : String) :
    (mkEntry row m).percentUsCanada =
      parse_us_canada_percentage (row.getD 4 (Cell.str "0")) := rfl

theorem mkEntry_primaryPercent (row : List Cell) (m : String) :
    (mkEntry row m).primaryPercent =
      ((parse_country_percentage (row.getD 5 (Cell.str ""))).1).getD 0 := rfl

theorem mkEntry_secondaryPercent (row : List Cell) (m : String) :
    (mkEntry row m).secondaryPercent =
      ((parse_country_percentage (row.getD 6 (Cell.str ""))).1).getD 0 := rfl

/-! ### Claim theorems -/

/-- C1 (counterexample): the claim that `percent_us_canada` always lies in
[0, 100] fails: for the row whose US/Canada content cell is `"150%"`, the
loop emits a record whose `percent_us_canada` is 150, because
`parse_us_canada_percentage` passes the leading integer through without
clamping. -/
theorem c1_counterexample :
    (processData [row150]).map Entry.percentUsCanada = [150] ∧
      ¬ (∀ e ∈ processData [row150],
          0 ≤ e.percentUsCanada ∧ e.percentUsCanada ≤ 100) := by
  decide

/-- C1 (amended): in every emitted record the three percentage fields are
nonnegative integers (an unparseable cell yields 0, never a negative or
missing marker), but they are not clamped: a leading integer above 100 is
emitted as is. -/
theorem c1_percent_fields_nonneg (rows : List (List Cell)) (e : Entry)
    (h : e ∈ processData rows) :
    0 ≤ e.percentUsCanada ∧ 0 ≤ e.primaryPercent ∧ 0 ≤ e.secondaryPercent := by
  obtain ⟨row, _, he⟩ := List.mem_filterMap.mp h
  obtain ⟨m0, _, rfl⟩ := rowToEntry_inv he
  rw [mkEntry_percentUsCanada, mkEntry_primaryPercent, mkEntry_secondaryPercent]
  exact ⟨parse_us_canada_percentage_nonneg _,
    parse_country_percentage_fst_nonneg _,
    parse_country_percentage_fst_nonneg _⟩

/-- Witness for C1 (amended) at the concrete Toyota row. -/
theorem c1_witness :
    0 ≤ toyotaEntry.percentUsCanada ∧ 0 ≤ toyotaEntry.primaryPercent ∧
      0 ≤ toyotaEntry.secondaryPercent :=
  c1_percent_fields_nonneg [toyotaRow] toyotaEntry (by decide)

/-- C2 (counterexample): a row whose cleaned car-line position and fallback
column are both empty is not dropped with reason "missing car line"; the
loop emits its record with an empty `car_line` (the fallback column is used
verbatim, and no drop path for car lines exists). -/
theorem c2_counterexample :
    (processData [blankCarLineRow]).map Entry.carLine = [Cell.str ""] ∧
      (processData [blankCarLineRow]).map Entry.manufacturer = ["Toyota"] := by
  decide

/-- C2 (amended): `manufacturer` is indeed never the empty string in an
emitted record, but `car_line` can be empty: when the cleaned car-line
position fails, the adjacent column is used raw, even when it too is empty,
and the record is emitted rather than dropped. -/
theorem c2_manufacturer_nonempty (rows : List (List Cell)) (e : Entry)
    (h : e ∈ processData rows) : e.manufacturer ≠ "" := by
  obtain ⟨row, _, he⟩ := List.mem_filterMap.mp h
  obtain ⟨m0, hm0, rfl⟩ := rowToEntry_inv he
  rw [mkEntry_manufacturer]
  exact normalize_manufacturer_ne_empty (clean_manufacturer_ne_empty hm0)

/-- Witness for C2 (amended) at the concrete Toyota row. -/
theorem c2_witness : toyotaEntry.manufacturer ≠ "" :=
  c2_manufacturer_nonempty [toyotaRow] toyotaEntry (by decide)

/-- C3 (counterexample): the pipeline keeps no drop-reason tally at all:
`process_data` silently skips rows (here a data row whose first cell is the
denylisted string "Limited") and neither it nor `main` records any reason,
so the number of emitted records plus the total of recorded drops (zero,
there being no tally) falls short of the number of classified data rows. -/
theorem c3_counterexample :
    classifyRow limitedRow = RowClass.dataRow ∧
      processData [limitedRow] = [] ∧
      (processData [limitedRow]).length + 0 ≠
        [limitedRow].countP (fun r => classifyRow r == RowClass.dataRow) := by
  decide

/-- C3 (amended): there is no drop-reason tally, but the conservation that
survives is this: every raw row is either emitted as exactly one record or
silently skipped, so the number of emitted records plus the number of
skipped rows equals the number of input rows, and skipped rows never appear
in the output. -/
theorem c3_conservation (rows : List (List Cell)) :
    (processData rows).length +
      rows.countP (fun r => (rowToEntry r).isNone) = rows.length := by
  induction rows with
  | nil => rfl
  | cons r t ih =>
    have hcp : (r :: t).countP (fun r => (rowToEntry r).isNone) =
        t.countP (fun r => (rowToEntry r).isNone) +
          (if (rowToEntry r).isNone then 1 else 0) :=
      List.countP_cons _ _ _
    cases h : rowToEntry r with
    | none =>
      have hf : processData (r :: t) = processData t := by
        simp [processData, List.filterMap_cons, h]
      rw [hf, hcp, h, List.length_cons]
      simp only [Option.isNone_none, eq_self_iff_true, if_true]
      omega
    | some e =>
      have hf : processData (r :: t) = e :: processData t := by
        simp [processData, List.filterMap_cons, h]
      rw [hf, hcp, h, List.length_cons, List.length_cons]
      simp only [Option.isNone_some, Bool.false_eq_true, if_false]
      omega

/-- C4 (counterexample): the row `["G", "Germany"]` is not classified as a
legend row: it has fewer than the minimum number of columns, so the loop
skips it as noise before the legend check, and its first cell `"G"` does
not even match the legend patterns, which require trailing whitespace
after the code. -/
theorem c4_counterexample :
    classifyRow [Cell.str "G", Cell.str "Germany"] = RowClass.noise ∧
      isLegendRow "G" = false ∧
      processData [[Cell.str "G", Cell.str "Germany"]] = [] := by
  decide

/-- C4 (amended): for rows with at least the minimum 8 cells whose first
cell matches a legend-prefix pattern, classification is LegendRow and no
record is produced, regardless of the remaining cells; shorter rows are
classified as noise by the length check even if their first cell matches. -/
theorem c4_legend_rows_skipped (row : List Cell) (h1 : 8 ≤ row.length)
    (h2 : isLegendRow (cellToStr (row.getD 0 (Cell.str ""))) = true) :
    classifyRow row = RowClass.legend ∧ rowToEntry row = none := by
  have hlt : ¬ row.length < 8 := by omega
  constructor
  · unfold classifyRow
    rw [if_neg hlt, if_pos h2]
  · unfold rowToEntry
    rw [if_neg hlt, if_pos h2]

/-- Witness for C4 (amended) at a concrete 9-cell legend row. -/
theorem c4_witness :
    classifyRow legendRow9 = RowClass.legend ∧ rowToEntry legendRow9 = none :=
  c4_legend_rows_skipped legendRow9 (by decide) (by decide)

/-- C7: processing the single Toyota Corolla example row emits exactly one
record, with manufacturer "Toyota", car line "Corolla", US/Canada content
75, primary country Germany at 15, secondary country Japan at 10, engine
source Germany, transmission source Japan, and assembly country United
States. -/
theorem c7_end_to_end : processData [toyotaRow] = [toyotaEntry] := by
  decide

/-- C8 (counterexample): resolution of the colliding code "AF" does not
depend on the manufacturer passed as context: with context "BMW" and with
any other manufacturer the resolver returns the same country, "South
Africa", because `normalize_country` never reads its context parameter. -/
theorem c8_counterexample :
    normalize_country (Cell.str "AF") "BMW" =
        normalize_country (Cell.str "AF") "Toyota" ∧
      normalize_country (Cell.str "AF") "BMW" = some "South Africa" :=
  ⟨rfl, by decide⟩

/-- C8 (amended): the resolver accepts a manufacturer context parameter but
never consults it: for every code and every two contexts the result is
identical; the "AF" collision is resolved by the global code table alone. -/
theorem c8_context_independent (code : Cell) (ctx1 ctx2 : String) :
    normalize_country code ctx1 = normalize_country code ctx2 := rfl

/-- C5: for every cell of the exact form "N%C", where N is a digit string
whose value is at most 100 and C is a 1-3 letter country-code token
(uppercase letters, as all codes in the document key are),
`parse_country_percentage` returns exactly the pair (N, C). -/
theorem c5_parse_percent_country (ds cs : List Char) (h1 : ds ≠ [])
    (h2 : ∀ c ∈ ds, isDigitCh c = true) (h3 : natOfDigits ds ≤ 100)
    (h4 : cs ≠ []) (h5 : cs.length ≤ 3) (h6 : ∀ c ∈ cs, isUpperAZ c = true) :
    parse_country_percentage (Cell.str (String.mk (ds ++ '%' :: cs))) =
      (some ((natOfDigits ds : Nat) : Int), some (String.mk cs)) := by
  rw [parse_country_percentage_eval ds cs h1 h2 h6]
  have hcs : cs.isEmpty = false := by
    cases cs with
    | nil => exact absurd rfl h4
    | cons a t => rfl
  rw [hcs]
  simp

/-- Witness for C5 at the concrete cell "75%G". -/
theorem c5_witness :
    parse_country_percentage (Cell.str (String.mk (['7', '5'] ++ '%' :: ['G']))) =
      (some ((natOfDigits ['7', '5'] : Nat) : Int), some (String.mk ['G'])) :=
  c5_parse_percent_country ['7', '5'] ['G'] (by decide) (by decide) (by decide)
    (by decide) (by decide) (by decide)

/-- The explicit list above is exactly the distinct values of the source
table `COUNTRY_MAPPING`, in first-occurrence order. -/
theorem canonicalCountries_eq :
    canonicalCountries = (COUNTRY_MAPPING.map (fun p => p.2)).dedup := by
  decide

/-- One idempotence case of the resolver: the name itself, its all-lower
rendering and its all-upper rendering each resolve to a value that resolves
to itself. -/
def idemCaseOk (n : String) : Bool :=
  [n, String.mk (n.data.map pyToLower), String.mk (n.data.map pyToUpper)].all
    (fun v =>
      ((normalize_country (Cell.str v) "").bind
          (fun m => normalize_country (Cell.str m) "")) ==
        normalize_country (Cell.str v) "")

theorem idemOk_0 : idemCaseOk "United States" = true := by decide

theorem idemOk_1 : idemCaseOk "Mexico" = true := by decide

theorem idemOk_2 : idemCaseOk "Canada" = true := by decide

theorem idemOk_3 : idemCaseOk "Japan" = true := by decide

theorem idemOk_4 : idemCaseOk "Germany" = true := by decide

theorem idemOk_5 : idemCaseOk "Denmark" = true := by decide

theorem idemOk_6 : idemCaseOk "South Korea" = true := by decide

theorem idemOk_7 : idemCaseOk "United Kingdom" = true := by decide

theorem idemOk_8 : idemCaseOk "Italy" = true := by decide

theorem idemOk_9 : idemCaseOk "France" = true := by decide

theorem idemOk_10 : idemCaseOk "Sweden" = true := by decide

theorem idemOk_11 : idemCaseOk "Hungary" = true := by decide

theorem idemOk_12 : idemCaseOk "Austria" = true := by decide

theorem idemOk_13 : idemCaseOk "Belgium" = true := by decide

theorem idemOk_14 : idemCaseOk "China" = true := by decide

theorem idemOk_15 : idemCaseOk "Czech Republic" = true := by decide

theorem idemOk_16 : idemCaseOk "Finland" = true := by decide

theorem idemOk_17 : idemCaseOk "Spain" = true := by decide

theorem idemOk_18 : idemCaseOk "Slovakia" = true := by decide

theorem idemOk_19 : idemCaseOk "Turkey" = true := by decide

theorem idemOk_20 : idemCaseOk "Brazil" = true := by decide

theorem idemOk_21 : idemCaseOk "South Africa" = true := by decide

theorem idemOk_22 : idemCaseOk "Australia" = true := by decide

theorem idemOk_23 : idemCaseOk "Poland" = true := by decide

theorem idemOk_24 : idemCaseOk "Thailand" = true := by decide

theorem idemOk_25 : idemCaseOk "Indonesia" = true := by decide

theorem idemOk_26 : idemCaseOk "India" = true := by decide

theorem idemOk_27 : idemCaseOk "Philippines" = true := by decide

theorem idemOk_28 : idemCaseOk "Portugal" = true := by decide

theorem idemOk_29 : idemCaseOk "Netherlands" = true := by decide

theorem idemOk_30 : idemCaseOk "Romania" = true := by decide

theorem idemOk_31 : idemCaseOk "Russia" = true := by decide

theorem idemOk_32 : idemCaseOk "Singapore" = true := by decide

theorem idemOk_33 : idemCaseOk "Cuba" = true := by decide

theorem idemOk_34 : idemCaseOk "Other" = true := by decide

theorem idemOk_35 : idemCaseOk "Malaysia" = true := by decide

theorem idemOk_36 : idemCaseOk "Argentina" = true := by decide

theorem idemOk_37 : idemCaseOk "Taiwan" = true := by decide

theorem idemOk_38 : idemCaseOk "Vietnam" = true := by decide

theorem idemOk_39 : idemCaseOk "Serbia" = true := by decide

/-- Every canonical country name passes the idempotence check in all three
case renderings. -/
theorem idemAllList : canonicalCountries.all idemCaseOk = true := by
  simp only [canonicalCountries, List.all_cons, List.all_nil,
    idemOk_0, idemOk_1, idemOk_2, idemOk_3, idemOk_4, idemOk_5, idemOk_6, idemOk_7, idemOk_8, idemOk_9, idemOk_10, idemOk_11, idemOk_12, idemOk_13, idemOk_14, idemOk_15, idemOk_16, idemOk_17, idemOk_18, idemOk_19, idemOk_20, idemOk_21, idemOk_22, idemOk_23, idemOk_24, idemOk_25, idemOk_26, idemOk_27, idemOk_28, idemOk_29, idemOk_30, idemOk_31, idemOk_32, idemOk_33, idemOk_34, idemOk_35, idemOk_36, idemOk_37, idemOk_38, idemOk_39,
    Bool.true_and, Bool.and_true, Bool.and_self]

/-- C6: resolving any name of the canonical country set, given in title
case, lower case or upper case, yields a value that resolves to itself:
composing the resolver with itself agrees with a single resolution, so
resolution is idempotent on the canonical country names. -/
theorem c6_resolve_idempotent :
    ∀ n ∈ canonicalCountries,
      ∀ v ∈ [n, String.mk (n.data.map pyToLower), String.mk (n.data.map pyToUpper)],
        (normalize_country (Cell.str v) "").bind
            (fun m => normalize_country (Cell.str m) "") =
          normalize_country (Cell.str v) "" := by
  intro n hn v hv
  have hok : idemCaseOk n = true := List.all_eq_true.mp idemAllList n hn
  unfold idemCaseOk at hok
  exact eq_of_beq (List.all_eq_true.mp hok v hv)

/-- Witness for C6 at the upper-case rendering of "Germany". -/
theorem c6_witness :
    (normalize_country (Cell.str (String.mk ("Germany".data.map pyToUpper))) "").bind
        (fun m => normalize_country (Cell.str m) "") =
      normalize_country (Cell.str (String.mk ("Germany".data.map pyToUpper))) "" :=
  c6_resolve_idempotent "Germany" (by decide)
    (String.mk ("Germany".data.map pyToUpper)) (by decide)

/-! ### Evaluation of the resolver on pure parenthetical tokens -/

theorem dropThroughRParen_append {inner : List Char} (h : ')' ∉ inner) :
    dropThroughRParen (inner ++ [')']) = some [] := by
  induction inner with
  | nil => rfl
  | cons c t ih =>
    have hc : c ≠ ')' := by
      intro he
      exact h (he ▸ List.mem_cons_self c t)
    rw [List.cons_append]
    unfold dropThroughRParen
    rw [if_neg hc]
    exact ih (fun hm => h (List.mem_cons_of_mem _ hm))

theorem parenMatchAt_eval {inner : List Char} (h : ')' ∉ inner) :
    parenMatchAt ('(' :: (inner ++ [')'])) = some [] := by
  unfold parenMatchAt
  rw [List.dropWhile_cons_of_neg (by decide)]
  exact dropThroughRParen_append h

theorem trim_paren (inner : List Char) :
    trimCharList ('(' :: (inner ++ [')'])) = '(' :: (inner ++ [')']) := by
  unfold trimCharList
  rw [List.dropWhile_cons_of_neg (by decide)]
  have hrev : ('(' :: (inner ++ [')'])).reverse = ')' :: (inner.reverse ++ ['(']) := by
    simp
  rw [hrev, List.dropWhile_cons_of_neg (by decide), ← hrev, List.reverse_reverse]

theorem stripParensF_nil (k : Nat) : stripParensF k [] = [] := by
  cases k <;> rfl

theorem stripParens_paren {inner : List Char} (h : ')' ∉ inner) :
    stripParens ('(' :: (inner ++ [')'])) = [] := by
  unfold stripParens
  have hlen : ('(' :: (inner ++ [')'])).length = inner.length + 1 + 1 := by
    simp
  rw [hlen]
  have hstep : stripParensF (inner.length + 1 + 1) ('(' :: (inner ++ [')'])) =
      match parenMatchAt ('(' :: (inner ++ [')'])) with
      | some after => stripParensF (inner.length + 1) after
      | none => '(' :: stripParensF (inner.length + 1) (inner ++ [')']) := rfl
  rw [hstep, parenMatchAt_eval h]
  exact stripParensF_nil _

/-- C9: a nonempty token that consists solely of a parenthetical group
(an opening parenthesis, any characters other than a closing parenthesis,
then the closing parenthesis) resolves to the empty string: the resolver
strips the group, the residue is empty but the original was not, and the
final fallback returns the now-empty cleaned text — neither None (reserved
for empty or whitespace input) nor the original text. -/
theorem c9_paren_token_empty (inner : List Char) (h : ')' ∉ inner) :
    normalize_country (Cell.str (String.mk ('(' :: (inner ++ [')'])))) "" = some "" ∧
      String.mk ('(' :: (inner ++ [')'])) ≠ "" := by
  constructor
  · have hdata : (String.mk ('(' :: (inner ++ [')']))).data = '(' :: (inner ++ [')']) := rfl
    simp only [normalize_country, hdata, trim_paren, List.isEmpty_cons,
      Bool.false_eq_true, if_false, stripParens_paren h]
    decide
  · exact mk_ne_empty (by simp)

/-- Witness for C9 at the concrete token "(AWD)". -/
theorem c9_witness :
    normalize_country (Cell.str (String.mk ('(' :: ("AWD".data ++ [')'])))) "" = some "" ∧
      String.mk ('(' :: ("AWD".data ++ [')'])) ≠ "" :=
  c9_paren_token_empty "AWD".data (by decide)

/-- C10: a composite cell holding a leading digit string and a percent sign
but no trailing alphabetic country token (the shape "N%") contributes its
integer to the primary percent field of the emitted record while the
primary country field is the empty string: a nonzero percentage can be
attributed to no country. -/
theorem c10_percent_no_country (ds : List Char) (h1 : ds ≠ [])
    (h2 : ∀ c ∈ ds, isDigitCh c = true) (h3 : 0 < natOfDigits ds) :
    processData [toyotaRowPct (Cell.str (String.mk (ds ++ ['%'])))] =
      [{ toyotaEntry with
          primaryCountry := "",
          primaryPercent := ((natOfDigits ds : Nat) : Int),
          raw := toyotaRowPct (Cell.str (String.mk (ds ++ ['%']))) }] := by
  have hp : parse_country_percentage (Cell.str (String.mk (ds ++ ['%']))) =
      (some ((natOfDigits ds : Nat) : Int), none) := by
    have := parse_country_percentage_eval ds [] h1 h2 (by intro c hc; cases hc)
    simpa using this
  have hstep : rowToEntry (toyotaRowPct (Cell.str (String.mk (ds ++ ['%'])))) =
      some (mkEntry (toyotaRowPct (Cell.str (String.mk (ds ++ ['%'])))) "Toyota") := rfl
  have hg : (toyotaRowPct (Cell.str (String.mk (ds ++ ['%'])))).getD 5 (Cell.str "") =
      Cell.str (String.mk (ds ++ ['%'])) := rfl
  have hmk : mkEntry (toyotaRowPct (Cell.str (String.mk (ds ++ ['%'])))) "Toyota" =
      { toyotaEntry with
          primaryCountry := "",
          primaryPercent := ((natOfDigits ds : Nat) : Int),
          raw := toyotaRowPct (Cell.str (String.mk (ds ++ ['%']))) } := by
    unfold mkEntry
    simp only [hg, hp, toyotaEntry]
    rfl
  calc processData [toyotaRowPct (Cell.str (String.mk (ds ++ ['%'])))]
      = [mkEntry (toyotaRowPct (Cell.str (String.mk (ds ++ ['%'])))) "Toyota"] := by
        simp [processData, hstep]
    _ = _ := by rw [hmk]

/-- Witness for C10 at the concrete cell "15%". -/
theorem c10_witness :
    processData [toyotaRowPct (Cell.str (String.mk (['1', '5'] ++ ['%'])))] =
      [{ toyotaEntry with
          primaryCountry := "",
          primaryPercent := ((natOfDigits ['1', '5'] : Nat) : Int),
          raw := toyotaRowPct (Cell.str (String.mk (['1', '5'] ++ ['%']))) }] :=
  c10_percent_no_country ['1', '5'] (by decide) (by decide) (by decide)
